import Mathlib

/-
Verification of the knowledge-base layer (polar-core/src/kb.rs) of the oso
policy engine: scope/namespace storage, rule-template compatibility checking,
and symbol generation.  The Rust code is shallowly embedded: maps become
association lists, `&mut self` methods become state-passing functions, the
`unimplemented!` panic inside `check_rule_compatibility` becomes a
distinguished `Except.error` outcome, and `Result<(), RuntimeError>` from
`add_rule` becomes an `Option RuleError` paired with the post-state.
-/

namespace Polar

deriving instance DecidableEq for Except

/-- Modelled from the spec: `Symbol` (terms.rs, not in the provided source) is
an interned name string with structural equality. -/
abbrev Symbol := String

mutual
/-- Modelled from the spec: the `Value` enum of terms.rs (not in the provided
source), restricted to the shapes the knowledge base inspects — a bare
variable, a pattern, and concrete values (numbers, strings, booleans) standing
for the remaining variants, which the matcher treats opaquely up to equality. -/
inductive Value where
  | var (name : String)
  | pattern (p : Pattern)
  | number (i : Int)
  | str (s : String)
  | boolean (b : Bool)

/-- Modelled from the spec: the `Pattern` enum of terms.rs (not in the provided
source): an instance pattern (a tag plus a field map) or a dictionary pattern. -/
inductive Pattern where
  | instanceLit (tag : String) (fields : Fields)
  | dictionary (fields : Fields)

/-- Modelled from the spec: a field map (the `Dictionary`'s `BTreeMap` of
terms.rs, not in the provided source) as a list of key/value entries. -/
inductive Fields where
  | fnil
  | fcons (key : String) (value : Value) (rest : Fields)
end

deriving instance DecidableEq for Value, Pattern, Fields

/-- A `Term` wraps a `Value` together with source information; the knowledge
base only ever reads `Term::value` and compares values, so the embedding
identifies the two. -/
abbrev Term := Value

/-- Lookup of a key in a field map (`BTreeMap::get`). -/
def Fields.get : Fields → String → Option Value
  | .fnil, _ => none
  | .fcons k v rest, key => if k = key then some v else Fields.get rest key

/-- Every entry of a field map satisfies the given boolean test
(the `.iter().map(...).all(...)` chain over `fields`). -/
def Fields.allEntries (p : String → Value → Bool) : Fields → Bool
  | .fnil => true
  | .fcons k v rest => p k v && Fields.allEntries p rest

/-- The entries of a field map as a list, for specification statements. -/
def Fields.toList : Fields → List (String × Value)
  | .fnil => []
  | .fcons k v rest => (k, v) :: Fields.toList rest

/-- The keys of a field map. -/
def Fields.keys (f : Fields) : List String :=
  f.toList.map Prod.fst

/-- Modelled from the spec: a rule parameter (rules.rs, not in the provided
source) carries a value term and an optional specializer term. -/
structure Parameter where
  parameter : Term
  specializer : Option Term
deriving DecidableEq

/-- Modelled from the spec: a rule (rules.rs, not in the provided source) has a
name and an ordered list of parameters; its body is never inspected here. -/
structure Rule where
  name : Symbol
  params : List Parameter
deriving DecidableEq

/-- Modelled from the spec: the clause-set `GenericRule` (rules.rs, not in the
provided source) — a container of rule clauses sharing one name, to which
clauses are appended. -/
structure GenericRule where
  name : Symbol
  rules : List Rule
deriving DecidableEq

/-- GenericRule constructor (`GenericRule::new`). -/
def GenericRule.new (name : Symbol) (rules : List Rule) : GenericRule :=
  ⟨name, rules⟩

/-- Modelled from the spec: `GenericRule::add_rule` (rules.rs, not in the
provided source) appends one clause to the clause-set. -/
def GenericRule.addClause (g : GenericRule) (r : Rule) : GenericRule :=
  ⟨g.name, g.rules ++ [r]⟩

/-- Modelled from the spec: the external `Sources` record (sources.rs, not in
the provided source) is opaque here, with a default empty state. -/
structure Sources where
  entries : List String
deriving DecidableEq

/-- The default (empty) Sources record (`Sources::default()`). -/
def Sources.defaultState : Sources := ⟨[]⟩

/-- Modelled from the spec: a `Path` (terms.rs, not in the provided source) is
an optional scope symbol plus a name symbol; `scope()` and `name()` are its
field accessors. -/
structure Path where
  scope : Option Symbol
  name : Symbol
deriving DecidableEq

/-- Path construction from a bare name (`Path::with_name`). -/
def Path.with_name (name : Symbol) : Path := ⟨none, name⟩

/-- Association-list lookup, standing for `HashMap::get`. -/
def alookup {α : Type} : List (Symbol × α) → Symbol → Option α
  | [], _ => none
  | (k, v) :: rest, key => if k = key then some v else alookup rest key

/-- Key membership, standing for `HashMap::contains_key`. -/
def acontains {α : Type} (l : List (Symbol × α)) (key : Symbol) : Bool :=
  (alookup l key).isSome

/-- Association-list insert-or-replace, standing for writing through a
`HashMap` entry. -/
def ainsert {α : Type} : List (Symbol × α) → Symbol → α → List (Symbol × α)
  | [], key, v => [(key, v)]
  | (k, w) :: rest, key, v =>
      if k = key then (k, v) :: rest else (k, w) :: ainsert rest key v

/-- The map after `HashMap::entry(key).or_insert_with(|| v)`: unchanged when
the key is present, extended with the default entry otherwise. -/
def entryOr {α : Type} (l : List (Symbol × α)) (key : Symbol) (v : α) :
    List (Symbol × α) :=
  if acontains l key then l else l ++ [(key, v)]

/-- A scope: a named namespace holding constants, rule templates and rule
clause-sets (kb.rs, `struct Scope`). -/
structure Scope where
  name : Symbol
  constants : List (Symbol × Term)
  rule_templates : List (Symbol × List Rule)
  rules : List (Symbol × GenericRule)
deriving DecidableEq

/-- Scope constructor (`Scope::new`): empty maps. -/
def Scope.new (name : Symbol) : Scope :=
  ⟨name, [], [], []⟩

/-- The knowledge base (kb.rs, `struct KnowledgeBase`).  The two counters are
process-local shared handles advanced through interior mutability; they are
kept outside this state and their current value is passed explicitly where
needed (`gensym`). -/
structure KnowledgeBase where
  scopes : List (Symbol × Scope)
  sources : Sources
  inline_queries : List Term
deriving DecidableEq

/-- KnowledgeBase constructor (`KnowledgeBase::new`): one scope named
"default". -/
def KnowledgeBase.new : KnowledgeBase :=
  ⟨[("default", Scope.new "default")], Sources.defaultState, []⟩

/-- Rust's `str::starts_with('_')` with a character pattern: the first
character is an underscore.  Written on the character list so that it
evaluates inside the kernel. -/
def startsWithUnderscore (p : String) : Bool :=
  match p.data with
  | [] => false
  | c :: _ => c = '_'

/-- Symbol generation (`KnowledgeBase::gensym`), given the value `n` the
gensym counter returned for this call. -/
def gensym (p : String) (n : Nat) : Symbol :=
  if p = "_" then "_" ++ toString n
  else if startsWithUnderscore p then p ++ "_" ++ toString n
  else "_" ++ p ++ "_" ++ toString n

/-- Scope-inclusion resolution (`KnowledgeBase::get_included_scope`): for now
everything is included in everything, so the base scope is ignored and the
lookup is by name alone. -/
def get_included_scope (kb : KnowledgeBase) (_base : Scope) (included : Symbol) :
    Option Scope :=
  alookup kb.scopes included

/-- Constant lookup (`KnowledgeBase::lookup_constant`). -/
def lookup_constant (kb : KnowledgeBase) (const_path : Path) (scope : Symbol) :
    Option Term :=
  (alookup kb.scopes scope).bind fun sc =>
    match const_path.scope, const_path.name with
    | none, const_name => alookup sc.constants const_name
    | some included_scope, const_name =>
        (get_included_scope kb sc included_scope).bind fun sc2 =>
          alookup sc2.constants const_name

/-- Rule lookup (`KnowledgeBase::lookup_rule`): returns the clause-set and the
name of the scope that owns it. -/
def lookup_rule (kb : KnowledgeBase) (rule_path : Path) (current_scope : Symbol) :
    Option (GenericRule × Symbol) :=
  (alookup kb.scopes current_scope).bind fun cur =>
    match rule_path.scope, rule_path.name with
    | none, rule_name =>
        (alookup cur.rules rule_name).map fun gr => (gr, cur.name)
    | some rule_scope, rule_name =>
        (get_included_scope kb cur rule_scope).bind fun new_scope =>
          (alookup new_scope.rules rule_name).map fun gr => (gr, new_scope.name)

/-- One positional template-parameter / rule-parameter comparison: the match
expression inside `KnowledgeBase::check_rule_compatibility`, arms in source
order.  The `unimplemented!("value match spec not implemented")` panic is the
`Except.error` outcome. -/
def paramMatches (template_param rule_param : Parameter) : Except Unit Bool :=
  match template_param.parameter, template_param.specializer,
        rule_param.parameter, rule_param.specializer with
  | Value.var _, some (Value.pattern (Pattern.instanceLit ttag tfields)),
    Value.var _, some (Value.pattern (Pattern.instanceLit rtag rfields)) =>
      Except.ok
        (if ttag = rtag then
          Fields.allEntries
            (fun k template_value =>
              match Fields.get rfields k with
              | some rule_value => rule_value == template_value
              | none => false)
            tfields
        else false)
  | Value.var _, some _, Value.var _, none => Except.ok false
  | Value.var _, some _, _, none => Except.error ()
  | Value.var _, none, _, _ => Except.ok true
  | template_value, none, rule_value, none =>
      Except.ok (template_value == rule_value)
  | _, _, _, _ => Except.ok false

/-- The positional loop of `check_rule_compatibility`: stops with `ok false`
at the first non-matching pair, propagates the unimplemented-case panic, and
yields `ok true` when every pair matches. -/
def checkParams : List (Parameter × Parameter) → Except Unit Bool
  | [] => Except.ok true
  | (rule_param, template_param) :: rest =>
      match paramMatches template_param rule_param with
      | Except.error e => Except.error e
      | Except.ok false => Except.ok false
      | Except.ok true => checkParams rest

/-- Rule/template compatibility (`KnowledgeBase::check_rule_compatibility`):
pairs the rule's parameters with the template's positionally (`zip` drops the
excess of the longer side) and requires every pair to match. -/
def check_rule_compatibility (rule template : Rule) : Except Unit Bool :=
  checkParams (rule.params.zip template.params)

/-- Outcomes of `add_rule` other than success: the returned
`RuntimeError::TypeError` ("Rule not allowed in scope"), or the
`unimplemented!` panic escaping from the compatibility check. -/
inductive RuleError where
  | typeError
  | unimplementedPanic
deriving DecidableEq

/-- The template loop inside `add_rule`: for each template of the rule's name,
when the arity matches, record that an applicable template exists and
overwrite the matched flag with this template's compatibility result. -/
def templateLoop (rule : Rule) (has_template matched_template : Bool) :
    List Rule → Except Unit (Bool × Bool)
  | [] => Except.ok (has_template, matched_template)
  | template :: rest =>
      if rule.params.length = template.params.length then
        match check_rule_compatibility rule template with
        | Except.error e => Except.error e
        | Except.ok m => templateLoop rule true m rest
      else
        templateLoop rule has_template matched_template rest

/-- The `if let Some(rule_templates) = scope.rule_templates.get(&rule_name)`
block of `add_rule`: run the template loop when templates are registered
under the rule's name, otherwise report no applicable template. -/
def templatesCheck (scope : Scope) (rule : Rule) : Except Unit (Bool × Bool) :=
  match alookup scope.rule_templates rule.name with
  | some rule_templates => templateLoop rule false false rule_templates
  | none => Except.ok (false, false)

/-- Rule registration (`KnowledgeBase::add_rule`): create the scope if absent,
check the rule against the templates registered under its name, and on
success append the rule to the clause-set for its name.  The first component
is the error (if any), the second the knowledge-base state afterwards. -/
def add_rule (kb : KnowledgeBase) (rule : Rule) (scope_name : Symbol) :
    Option RuleError × KnowledgeBase :=
  let scope := (alookup kb.scopes scope_name).getD (Scope.new scope_name)
  let scopes1 := entryOr kb.scopes scope_name (Scope.new scope_name)
  match templatesCheck scope rule with
  | Except.error _ =>
      (some RuleError.unimplementedPanic, { kb with scopes := scopes1 })
  | Except.ok (has_template, matched_template) =>
      if has_template && !matched_template then
        (some RuleError.typeError, { kb with scopes := scopes1 })
      else
        let gr := (alookup scope.rules rule.name).getD
          (GenericRule.new rule.name [])
        let scope' :=
          { scope with rules := ainsert scope.rules rule.name (gr.addClause rule) }
        (none, { kb with scopes := ainsert scopes1 scope_name scope' })

/-- Template registration (`KnowledgeBase::add_rule_template`): create the
scope if absent, then `entry(name).or_insert_with(|| vec![template])` on its
template map — the singleton list is inserted only when the name is vacant. -/
def add_rule_template (kb : KnowledgeBase) (template : Rule) (scope_name : Symbol) :
    KnowledgeBase :=
  let scope := (alookup kb.scopes scope_name).getD (Scope.new scope_name)
  let scopes1 := entryOr kb.scopes scope_name (Scope.new scope_name)
  let scope' :=
    { scope with
        rule_templates := entryOr scope.rule_templates template.name [template] }
  { kb with scopes := ainsert scopes1 scope_name scope' }

/-- The loop body of `clear_rules` on one scope: `scope.rules.clear()` leaves
the name, constants and templates in place and empties the rules map. -/
def clearScope (sc : Scope) : Scope :=
  ⟨sc.name, sc.constants, sc.rule_templates, []⟩

/-- Reset (`KnowledgeBase::clear_rules`): clear every scope's rules map, reset
the Sources record, clear the inline-query list. -/
def clear_rules (kb : KnowledgeBase) : KnowledgeBase :=
  { scopes := kb.scopes.map (fun e => (e.1, clearScope e.2)),
    sources := Sources.defaultState,
    inline_queries := [] }

/-- A value is a bare variable (`Value::Variable`). -/
def Value.isVar : Value → Bool
  | .var _ => true
  | _ => false

/-- A value is an instance pattern (`Value::Pattern(Pattern::Instance(..))`). -/
def Value.isInstancePattern : Value → Bool
  | .pattern (Pattern.instanceLit _ _) => true
  | _ => false

/-- A field map already holds the given key. -/
def Fields.hasKey (f : Fields) (k : String) : Bool :=
  (f.get k).isSome

/-- The keys of a field map are pairwise distinct, as they are in the
`BTreeMap` this list stands for. -/
def Fields.distinctKeys : Fields → Bool
  | .fnil => true
  | .fcons k _ rest => !(Fields.hasKey rest k) && Fields.distinctKeys rest

/-- A parameter shape for which self-comparison is meaningful: either no
specializer at all, or a variable specialized by an instance pattern whose
field map is well-formed (distinct keys). -/
def Parameter.selfOk (p : Parameter) : Bool :=
  match p.parameter, p.specializer with
  | _, none => true
  | Value.var _, some (Value.pattern (Pattern.instanceLit _ f)) =>
      Fields.distinctKeys f
  | _, some _ => false

/-- Shorthand for an unspecialized parameter. -/
def pv (v : Value) : Parameter := ⟨v, none⟩

/-- Shorthand for a specialized parameter. -/
def ps (v s : Value) : Parameter := ⟨v, some s⟩

/-- Shorthand for a fieldless instance-pattern term with the given tag. -/
def inst (tag : String) : Value :=
  Value.pattern (Pattern.instanceLit tag Fields.fnil)

/-- Template `f(x)` of the C1 scenario: compatible with any one-parameter
rule. -/
def c1TemplateOk : Rule := ⟨"f", [pv (Value.var "x")]⟩

/-- Template `f(1)` of the C1 scenario: compatible only with `f(1)`. -/
def c1TemplateBad : Rule := ⟨"f", [pv (Value.number 1)]⟩

/-- Rule `f(2)` of the C1 scenario. -/
def c1Rule : Rule := ⟨"f", [pv (Value.number 2)]⟩

/-- A knowledge base whose scope "s" registers the two same-arity templates
`f(x)` and `f(1)`, in that order, under the name "f". -/
def c1Kb : KnowledgeBase :=
  ⟨[("s", ⟨"s", [], [("f", [c1TemplateOk, c1TemplateBad])], []⟩)],
    Sources.defaultState, []⟩

/-- First template of the C2 scenario: `f(x)`. -/
def c2T1 : Rule := ⟨"f", [pv (Value.var "x")]⟩

/-- Second template of the C2 scenario: `f(x: A)`, distinct from the first. -/
def c2T2 : Rule := ⟨"f", [ps (Value.var "x") (inst "A")]⟩

/-- A template whose single parameter pairs a concrete value with a
specializer: the C4 counterexample input. -/
def c4Bad : Rule := ⟨"g", [ps (Value.number 1) (inst "A")]⟩

/-- A template with a field-constrained instance specializer and a concrete
second parameter: the C4 witness input. -/
def c4Good : Rule :=
  ⟨"f", [ps (Value.var "x")
            (Value.pattern (Pattern.instanceLit "A"
              (Fields.fcons "a" (Value.number 1) Fields.fnil))),
         pv (Value.number 7)]⟩

/-- Template `f(x: Dictionary-pattern)` of the C5 witness: a variable with a
present specializer that is not an instance pattern. -/
def c5Template : Rule :=
  ⟨"f", [ps (Value.var "x") (Value.pattern (Pattern.dictionary Fields.fnil))]⟩

/-- A knowledge base whose scope "s" registers `c5Template` under "f". -/
def c5Kb : KnowledgeBase :=
  ⟨[("s", ⟨"s", [], [("f", [c5Template])], []⟩)], Sources.defaultState, []⟩

/-- A knowledge base with one populated scope, used to instantiate the frame
theorems: scope "s" holds a constant, a template and one registered clause. -/
def wKb : KnowledgeBase :=
  ⟨[("s", ⟨"s", [("c", Value.number 5)], [("f", [c1TemplateOk])],
      [("f", ⟨"f", [c1Rule]⟩)]⟩)],
    ⟨["source text"]⟩, [Value.number 9]⟩


/-! Helper lemmas about the association-list and field-map primitives. -/

theorem alookup_map_value {α β : Type} (f : α → β) (l : List (Symbol × α))
    (k : Symbol) :
    alookup (l.map (fun e => (e.1, f e.2))) k = (alookup l k).map f := by
  induction l with
  | nil => rfl
  | cons hd tl ih =>
      simp only [List.map_cons, alookup]
      split <;> simp [ih]

theorem alookup_append_singleton_self {α : Type} (l : List (Symbol × α))
    (k : Symbol) (v : α) : (alookup (l ++ [(k, v)]) k).isSome = true := by
  induction l with
  | nil => simp [alookup]
  | cons hd tl ih =>
      simp only [List.cons_append, alookup]
      split
      · simp
      · exact ih

theorem acontains_entryOr_self {α : Type} (l : List (Symbol × α)) (k : Symbol)
    (v : α) : acontains (entryOr l k v) k = true := by
  unfold entryOr
  split
  · assumption
  · exact alookup_append_singleton_self l k v

theorem acontains_ainsert_self {α : Type} (l : List (Symbol × α)) (k : Symbol)
    (v : α) : acontains (ainsert l k v) k = true := by
  induction l with
  | nil => simp [acontains, ainsert, alookup]
  | cons hd tl ih =>
      simp only [acontains, ainsert] at *
      split
      · rename_i h
        simp [alookup, h]
      · rename_i h
        simp [alookup, h, ih]

theorem fields_allEntries_iff (p : String → Value → Bool) :
    (f : Fields) →
      (Fields.allEntries p f = true ↔ ∀ k v, (k, v) ∈ f.toList → p k v = true)
  | .fnil => by simp [Fields.allEntries, Fields.toList]
  | .fcons k v rest => by
      have ih := fields_allEntries_iff p rest
      simp only [Fields.allEntries, Fields.toList, Bool.and_eq_true, ih,
        List.mem_cons]
      constructor
      · rintro ⟨h1, h2⟩ k' v' (⟨rfl, rfl⟩ | h)
        · exact h1
        · exact h2 k' v' h
      · intro h
        exact ⟨h k v (Or.inl rfl), fun k' v' hm => h k' v' (Or.inr hm)⟩

theorem fields_mem_hasKey :
    (f : Fields) → ∀ k v, (k, v) ∈ f.toList → Fields.hasKey f k = true
  | .fnil => by simp [Fields.toList]
  | .fcons k0 v0 rest => by
      intro k v hm
      simp only [Fields.toList, List.mem_cons] at hm
      simp only [Fields.hasKey, Fields.get]
      rcases hm with ⟨rfl, rfl⟩ | hm
      · simp
      · split
        · simp
        · exact fields_mem_hasKey rest k v hm

theorem fields_get_self :
    (f : Fields) → Fields.distinctKeys f = true →
      ∀ k v, (k, v) ∈ f.toList → Fields.get f k = some v
  | .fnil => by simp [Fields.toList]
  | .fcons k0 v0 rest => by
      intro hd k v hm
      simp only [Fields.distinctKeys, Bool.and_eq_true, Bool.not_eq_true'] at hd
      simp only [Fields.toList, List.mem_cons] at hm
      simp only [Fields.get]
      rcases hm with ⟨rfl, rfl⟩ | hm
      · simp
      · split
        · rename_i heq
          have h1 := fields_mem_hasKey rest k v hm
          rw [heq] at hd
          rw [hd.1] at h1
          simp at h1
        · exact fields_get_self rest hd.2 k v hm

theorem match_get_beq_iff (rf : Fields) (k : String) (v : Value) :
    (match Fields.get rf k with
      | some rule_value => rule_value == v
      | none => false) = true ↔ Fields.get rf k = some v := by
  cases h : Fields.get rf k <;> simp [h]

theorem paramMatches_self (p : Parameter) (hp : Parameter.selfOk p = true) :
    paramMatches p p = Except.ok true := by
  obtain ⟨pval, pspec⟩ := p
  cases pspec with
  | none =>
      cases pval <;> simp [paramMatches]
  | some s =>
      cases pval with
      | var nm =>
          cases s with
          | pattern q =>
              cases q with
              | instanceLit tag f =>
                  simp only [Parameter.selfOk] at hp
                  simp only [paramMatches, Except.ok.injEq]
                  split
                  · rw [fields_allEntries_iff]
                    intro k v hm
                    rw [match_get_beq_iff]
                    exact fields_get_self f hp k v hm
                  · rename_i hcon
                    exact absurd trivial hcon
              | dictionary f => simp [Parameter.selfOk] at hp
          | var nm2 => simp [Parameter.selfOk] at hp
          | number i => simp [Parameter.selfOk] at hp
          | str s2 => simp [Parameter.selfOk] at hp
          | boolean b => simp [Parameter.selfOk] at hp
      | pattern q => simp [Parameter.selfOk] at hp
      | number i => simp [Parameter.selfOk] at hp
      | str s2 => simp [Parameter.selfOk] at hp
      | boolean b => simp [Parameter.selfOk] at hp

theorem checkParams_zip_self (l : List Parameter)
    (h : ∀ p ∈ l, Parameter.selfOk p = true) :
    checkParams (l.zip l) = Except.ok true := by
  induction l with
  | nil => rfl
  | cons hd tl ih =>
      simp only [List.zip_cons_cons, checkParams,
        paramMatches_self hd (h hd (List.mem_cons_self hd tl))]
      exact ih (fun p hp => h p (List.mem_cons_of_mem hd hp))

/-- C4 (amended): `check_rule_compatibility(T, T)` returns true for every
template `T` in which each parameter either has no specializer or is a
variable specialized by an instance pattern (with a well-formed field map);
reflexivity does not extend to parameters pairing a non-variable value with a
specializer, or a variable with a non-instance-pattern specializer. -/
theorem c4_compat_reflexive_amended (t : Rule)
    (h : ∀ p ∈ t.params, Parameter.selfOk p = true) :
    check_rule_compatibility t t = Except.ok true := by
  unfold check_rule_compatibility
  exact checkParams_zip_self t.params h

/-- Witness for C4 (amended) at a concrete template with a field-constrained
instance specializer and a concrete second parameter. -/
theorem c4_compat_reflexive_amended_witness :
    check_rule_compatibility c4Good c4Good = Except.ok true :=
  c4_compat_reflexive_amended c4Good (by decide)

/-- C4 (counterexample): compatibility is not reflexive as claimed — for the
template `g(1: A)`, whose single parameter pairs a concrete value with an
instance-pattern specializer, `check_rule_compatibility(T, T)` returns
false. -/
theorem c4_compat_not_reflexive :
    check_rule_compatibility c4Bad c4Bad = Except.ok false := by decide

/-- C3: a positional pair of a variable template parameter specialized by
instance pattern `T1{F1}` and a variable rule parameter specialized by
instance pattern `T2{F2}` matches precisely when the tags agree and every
field of `F1` is present with an equal value in `F2`; extra fields of `F2`
are unconstrained. -/
theorem c3_instance_pattern_match_iff (x y ttag rtag : String)
    (tf rf : Fields) :
    paramMatches
        ⟨Value.var x, some (Value.pattern (Pattern.instanceLit ttag tf))⟩
        ⟨Value.var y, some (Value.pattern (Pattern.instanceLit rtag rf))⟩
      = Except.ok true
    ↔ (ttag = rtag ∧ ∀ k v, (k, v) ∈ tf.toList → rf.get k = some v) := by
  simp only [paramMatches, Except.ok.injEq]
  by_cases htag : ttag = rtag
  · rw [if_pos htag, fields_allEntries_iff]
    simp only [htag, true_and]
    constructor
    · intro h k v hm
      exact (match_get_beq_iff rf k v).mp (h k v hm)
    · intro h k v hm
      exact (match_get_beq_iff rf k v).mpr (h k v hm)
  · rw [if_neg htag]
    simp [htag]

/-- C1: `add_rule` does not take the disjunction of compatibility over the
same-arity templates: in a scope registering the same-name, same-arity
templates `f(x)` and `f(1)` in that order, the rule `f(2)` is compatible with
the first template (so the claimed logical OR is true), yet `add_rule` returns
the "Rule not allowed in scope" type error because only the last checked
template's result is remembered. -/
theorem c1_add_rule_last_template_wins :
    check_rule_compatibility c1Rule c1TemplateOk = Except.ok true
    ∧ check_rule_compatibility c1Rule c1TemplateBad = Except.ok false
    ∧ c1TemplateOk.params.length = c1Rule.params.length
    ∧ c1TemplateBad.params.length = c1Rule.params.length
    ∧ (alookup c1Kb.scopes "s").map (fun sc => alookup sc.rule_templates "f")
        = some (some [c1TemplateOk, c1TemplateBad])
    ∧ (add_rule c1Kb c1Rule "s").1 = some RuleError.typeError := by
  decide

/-- C2: `add_rule_template` silently discards a second template for an
existing name instead of appending it — after registering the distinct
templates `c2T1` then `c2T2` under the name "f" in scope "s", the stored
template list is still `[c2T1]`, not `[c2T1, c2T2]`. -/
theorem c2_add_rule_template_discards_second :
    (alookup (add_rule_template (add_rule_template KnowledgeBase.new c2T1 "s")
          c2T2 "s").scopes "s").map (fun sc => alookup sc.rule_templates "f")
      = some (some [c2T1])
    ∧ c2T1 ≠ c2T2
    ∧ [c2T1] ≠ [c2T1, c2T2] := by
  decide

/-- C7: `gensym` formats the fresh name from the prefix `p` and the counter
value `n` exactly as specified — `"_<n>"` when `p` is `"_"`, `"<p>_<n>"` when
`p` already starts with an underscore, and `"_<p>_<n>"` otherwise. -/
theorem c7_gensym_format (p : String) (n : Nat) :
    (p = "_" → gensym p n = "_" ++ toString n)
    ∧ (p ≠ "_" → startsWithUnderscore p = true →
        gensym p n = p ++ "_" ++ toString n)
    ∧ (startsWithUnderscore p = false →
        gensym p n = "_" ++ p ++ "_" ++ toString n) := by
  refine ⟨fun h1 => ?_, fun h1 h2 => ?_, fun h2 => ?_⟩
  · rw [gensym, if_pos h1]
  · rw [gensym, if_neg h1, if_pos h2]
  · have h1 : p ≠ "_" := by
      intro he
      subst he
      simp [startsWithUnderscore] at h2
    rw [gensym, if_neg h1, if_neg (by simp [h2])]

/-- Witness for C7 at the three concrete prefixes "_", "_foo" and "foo" with
counter value 3. -/
theorem c7_gensym_format_witness :
    gensym "_" 3 = "_3" ∧ gensym "_foo" 3 = "_foo_3"
    ∧ gensym "foo" 3 = "_foo_3" :=
  ⟨((c7_gensym_format "_" 3).1 rfl).trans (by decide),
   ((c7_gensym_format "_foo" 3).2.1 (by decide) (by decide)).trans (by decide),
   ((c7_gensym_format "foo" 3).2.2 (by decide)).trans (by decide)⟩

/-- C10: after any call to `add_rule` — succeeding, rejecting the rule with
the type error, or aborting in the unimplemented matcher case — a scope of
the requested name exists in the knowledge base, because the scope is created
(if absent) before the template check runs. -/
theorem c10_add_rule_creates_scope (kb : KnowledgeBase) (rule : Rule)
    (scope_name : Symbol) :
    acontains (add_rule kb rule scope_name).2.scopes scope_name = true := by
  simp only [add_rule]
  split
  · exact acontains_entryOr_self kb.scopes scope_name (Scope.new scope_name)
  · split
    · exact acontains_entryOr_self kb.scopes scope_name (Scope.new scope_name)
    · exact acontains_ainsert_self _ scope_name _

/-- C8: `clear_rules` empties every scope's rules map, resets the Sources
record and the inline-query list, and leaves the set of scopes and each
scope's name, constants and rule templates exactly as they were. -/
theorem c8_clear_rules_frame (kb : KnowledgeBase) :
    (clear_rules kb).sources = Sources.defaultState
    ∧ (clear_rules kb).inline_queries = []
    ∧ (∀ s, acontains (clear_rules kb).scopes s = acontains kb.scopes s)
    ∧ (∀ s sc, alookup kb.scopes s = some sc →
        alookup (clear_rules kb).scopes s
          = some ⟨sc.name, sc.constants, sc.rule_templates, []⟩) := by
  refine ⟨rfl, rfl, fun s => ?_, fun s sc h => ?_⟩
  · show acontains (kb.scopes.map
        (fun e => (e.1, clearScope e.2))) s = acontains kb.scopes s
    rw [acontains, alookup_map_value clearScope, acontains]
    cases alookup kb.scopes s <;> rfl
  · show alookup (kb.scopes.map
        (fun e => (e.1, clearScope e.2))) s = _
    rw [alookup_map_value clearScope, h]
    rfl

/-- Witness for C8 at a knowledge base with one populated scope. -/
theorem c8_clear_rules_frame_witness :
    alookup (clear_rules wKb).scopes "s"
      = some ⟨"s", [("c", Value.number 5)], [("f", [c1TemplateOk])], []⟩ :=
  (c8_clear_rules_frame wKb).2.2.2 "s"
    ⟨"s", [("c", Value.number 5)], [("f", [c1TemplateOk])],
      [("f", ⟨"f", [c1Rule]⟩)]⟩ rfl

/-- C5: when a positional pair puts a variable template parameter carrying a
specializer that is not an instance pattern against an unspecialized
non-variable rule value, the matcher does not judge the position true or
false — it signals the unimplemented case — and a registration reaching that
pair aborts with that distinguished error rather than a type error or
success. -/
theorem c5_unimplemented_specializer (x : String) (s v : Value)
    (hs : Value.isInstancePattern s = false)
    (hv : Value.isVar v = false)
    (kb : KnowledgeBase) (scope_name rname : Symbol) (sc : Scope) (t : Rule)
    (hsc : alookup kb.scopes scope_name = some sc)
    (ht : alookup sc.rule_templates rname = some [t])
    (htp : t.params = [⟨Value.var x, some s⟩]) :
    paramMatches ⟨Value.var x, some s⟩ ⟨v, none⟩ = Except.error ()
    ∧ (add_rule kb ⟨rname, [⟨v, none⟩]⟩ scope_name).1
        = some RuleError.unimplementedPanic := by
  have hA : paramMatches ⟨Value.var x, some s⟩ ⟨v, none⟩ = Except.error () := by
    cases v
    case var nm => exact absurd hv (by simp [Value.isVar])
    all_goals
      first
        | rfl
        | (cases s <;>
            first
              | rfl
              | (rename_i q
                 cases q <;> rfl))
  have hlen : (Rule.mk rname [Parameter.mk v none]).params.length
      = t.params.length := by
    simp [htp]
  have hcheck : check_rule_compatibility ⟨rname, [⟨v, none⟩]⟩ t
      = Except.error () := by
    unfold check_rule_compatibility
    rw [htp]
    show checkParams [(⟨v, none⟩, ⟨Value.var x, some s⟩)] = Except.error ()
    simp only [checkParams, hA]
  have hloop : templateLoop ⟨rname, [⟨v, none⟩]⟩ false false [t]
      = Except.error () := by
    unfold templateLoop
    rw [if_pos hlen, hcheck]
  have hchk : templatesCheck sc ⟨rname, [⟨v, none⟩]⟩ = Except.error () := by
    simp only [templatesCheck, ht, hloop]
  refine ⟨hA, ?_⟩
  simp only [add_rule, hsc, Option.getD_some, hchk]

/-- Witness for C5 at the dictionary-pattern specializer and rule value 1. -/
theorem c5_unimplemented_specializer_witness :
    paramMatches ⟨Value.var "x", some (Value.pattern
        (Pattern.dictionary Fields.fnil))⟩ ⟨Value.number 1, none⟩
      = Except.error ()
    ∧ (add_rule c5Kb ⟨"f", [⟨Value.number 1, none⟩]⟩ "s").1
        = some RuleError.unimplementedPanic :=
  c5_unimplemented_specializer "x"
    (Value.pattern (Pattern.dictionary Fields.fnil))
    (Value.number 1) (by decide) (by decide) c5Kb "s" "f"
    ⟨"s", [], [("f", [c5Template])], []⟩ c5Template (by decide) (by decide)
    (by decide)

/-- C6: `add_rule` is atomic on the shape/type-error path — whenever it
returns the "Rule not allowed in scope" type error, the knowledge base
afterwards equals the knowledge base before, so in particular the clause-set
stored under the rule's name is unchanged. -/
theorem c6_add_rule_atomic_on_type_error (kb : KnowledgeBase) (rule : Rule)
    (scope_name : Symbol)
    (h : (add_rule kb rule scope_name).1 = some RuleError.typeError) :
    (add_rule kb rule scope_name).2 = kb := by
  rcases hlook : alookup kb.scopes scope_name with _ | sc
  · simp [add_rule, hlook, templatesCheck, Scope.new, alookup] at h
  · have hcon : acontains kb.scopes scope_name = true := by
      simp [acontains, hlook]
    have hent : entryOr kb.scopes scope_name (Scope.new scope_name)
        = kb.scopes := by
      simp [entryOr, hcon]
    simp only [add_rule, hlook, Option.getD_some, hent] at h ⊢
    rcases hchk : templatesCheck sc rule with e | pr
    · rfl
    · obtain ⟨ht2, mt⟩ := pr
      rw [hchk] at h
      by_cases hb : (ht2 && !mt) = true
      · simp [hb]
      · have hb2 : ¬(ht2 = true ∧ mt = false) := by
          intro hc
          apply hb
          rw [hc.1, hc.2]
          rfl
        simp [hb2] at h

/-- Witness for C6 at a scope whose template `f(1)` rejects the rule `f(2)`. -/
theorem c6_add_rule_atomic_on_type_error_witness :
    (add_rule ⟨[("s", ⟨"s", [], [("f", [c1TemplateBad])], []⟩)],
        Sources.defaultState, []⟩ c1Rule "s").2
      = ⟨[("s", ⟨"s", [], [("f", [c1TemplateBad])], []⟩)],
          Sources.defaultState, []⟩ :=
  c6_add_rule_atomic_on_type_error _ c1Rule "s" (by decide)

/-- C9: absence is never an error for the lookup operations — a missing
current scope, a missing qualified included scope, or a missing name all
yield `none` from `lookup_constant` and `lookup_rule` — and the
scope-inclusion resolver ignores the base scope entirely, so a qualified
reference resolves for any existing scope name. -/
theorem c9_lookup_absence_and_inclusion (kb : KnowledgeBase) (p : Path)
    (cur : Symbol) :
    (alookup kb.scopes cur = none →
        lookup_constant kb p cur = none ∧ lookup_rule kb p cur = none)
    ∧ (∀ inc, p.scope = some inc → alookup kb.scopes inc = none →
        lookup_constant kb p cur = none ∧ lookup_rule kb p cur = none)
    ∧ (∀ sc, alookup kb.scopes cur = some sc → p.scope = none →
        alookup sc.constants p.name = none → lookup_constant kb p cur = none)
    ∧ (∀ sc, alookup kb.scopes cur = some sc → p.scope = none →
        alookup sc.rules p.name = none → lookup_rule kb p cur = none)
    ∧ (∀ sc inc isc, alookup kb.scopes cur = some sc → p.scope = some inc →
        alookup kb.scopes inc = some isc →
        alookup isc.constants p.name = none → lookup_constant kb p cur = none)
    ∧ (∀ sc inc isc, alookup kb.scopes cur = some sc → p.scope = some inc →
        alookup kb.scopes inc = some isc →
        alookup isc.rules p.name = none → lookup_rule kb p cur = none)
    ∧ (∀ base1 base2 inc,
        get_included_scope kb base1 inc = get_included_scope kb base2 inc)
    ∧ (∀ base inc isc, alookup kb.scopes inc = some isc →
        get_included_scope kb base inc = some isc) := by
  refine ⟨fun h => ?_, fun inc hp hinc => ?_, fun sc hsc hp hn => ?_,
    fun sc hsc hp hn => ?_, fun sc inc isc hsc hp hinc hn => ?_,
    fun sc inc isc hsc hp hinc hn => ?_, fun b1 b2 inc => rfl,
    fun base inc isc hinc => hinc⟩
  · exact ⟨by simp [lookup_constant, h], by simp [lookup_rule, h]⟩
  · rcases hcur : alookup kb.scopes cur with _ | sc
    · exact ⟨by simp [lookup_constant, hcur], by simp [lookup_rule, hcur]⟩
    · exact ⟨by simp [lookup_constant, hcur, hp, get_included_scope, hinc],
        by simp [lookup_rule, hcur, hp, get_included_scope, hinc]⟩
  · simp [lookup_constant, hsc, hp, hn]
  · simp [lookup_rule, hsc, hp, hn]
  · simp [lookup_constant, hsc, hp, get_included_scope, hinc, hn]
  · simp [lookup_rule, hsc, hp, get_included_scope, hinc, hn]

/-- Witness for C9: lookups against a missing scope name in a fresh
knowledge base. -/
theorem c9_lookup_absence_and_inclusion_witness :
    lookup_constant KnowledgeBase.new ⟨none, "c"⟩ "missing" = none
    ∧ lookup_rule KnowledgeBase.new ⟨none, "c"⟩ "missing" = none :=
  (c9_lookup_absence_and_inclusion KnowledgeBase.new ⟨none, "c"⟩ "missing").1
    (by decide)

end Polar
